import Mathlib

/-!
Shallow embedding of the denormalized social-graph write fan-out of the
tiktok-web repository: the Firebase Realtime Database slices touched by the
like toggle, the comment recorder, the follow recorder, the feed assembler,
the title search and the seeding retry helper, together with theorems about
the claims of the specification.
-/

namespace TikTok

/-! ### Association-list view of a store node

A Realtime Database node whose children are records is modelled as an
association list from child key to record.  The lookup returns the first
binding; the update rewrites every binding of the key (a store key is unique,
so the two agree on well-formed states). -/

def lookupA {β : Type} (l : List (String × β)) (k : String) : Option β :=
  match l with
  | [] => none
  | (k', v) :: rest => if k' = k then some v else lookupA rest k

def updateA {β : Type} (l : List (String × β)) (k : String) (f : β → β) :
    List (String × β) :=
  match l with
  | [] => []
  | (k', v) :: rest =>
    if k' = k then (k', f v) :: updateA rest k f
    else (k', v) :: updateA rest k f

def setA {β : Type} (l : List (String × β)) (k : String) (v : β) :
    List (String × β) :=
  match l with
  | [] => [(k, v)]
  | (k', w) :: rest => if k' = k then (k', v) :: rest else (k', w) :: setA rest k v

theorem lookupA_updateA_self {β : Type} (l : List (String × β)) (k : String)
    (f : β → β) : lookupA (updateA l k f) k = (lookupA l k).map f := by
  induction l with
  | nil => rfl
  | cons p rest ih =>
    obtain ⟨k', v⟩ := p
    by_cases h : k' = k
    · simp [lookupA, updateA, h]
    · simp [lookupA, updateA, h, ih]

theorem lookupA_updateA_ne {β : Type} (l : List (String × β)) (k k' : String)
    (f : β → β) (h : k ≠ k') :
    lookupA (updateA l k f) k' = lookupA l k' := by
  induction l with
  | nil => rfl
  | cons p rest ih =>
    obtain ⟨k0, v⟩ := p
    by_cases h0 : k0 = k
    · subst h0
      simp [lookupA, updateA, h, ih]
    · by_cases h1 : k0 = k'
      · simp [lookupA, updateA, h0, h1, Ne.symm h]
      · simp [lookupA, updateA, h0, h1, ih]

theorem lookupA_setA_ne {β : Type} (l : List (String × β)) (k k' : String)
    (v : β) (h : k ≠ k') :
    lookupA (setA l k v) k' = lookupA l k' := by
  induction l with
  | nil => simp [lookupA, setA, h]
  | cons p rest ih =>
    obtain ⟨k0, w⟩ := p
    by_cases h0 : k0 = k
    · subst h0
      simp [lookupA, setA, h, Ne.symm h, ih]
    · by_cases h1 : k0 = k'
      · simp [lookupA, setA, h0, h1, Ne.symm h]
      · simp [lookupA, setA, h0, h1, ih]

theorem lookupA_setA_self {β : Type} (l : List (String × β)) (k : String)
    (v : β) : lookupA (setA l k v) k = some v := by
  induction l with
  | nil => simp [lookupA, setA]
  | cons p rest ih =>
    obtain ⟨k', w⟩ := p
    by_cases h : k' = k
    · simp [lookupA, setA, h]
    · simp [lookupA, setA, h, ih]

/-! ### Video records and the like toggle

The record stored at videos/<videoId>; the likedBy child is the set of
account identifiers holding a true flag.  Counters are integers because the
store imposes no lower bound on them. -/

structure VideoRec where
  id : String
  userId : String
  title : Option String
  videoUrl : String
  thumbnailUrl : String
  username : String
  userImage : String
  likes : Int
  comments : Int
  views : Int
  createdAt : Int
  likedBy : List String
deriving Repr, DecidableEq

abbrev VideosDB := List (String × VideoRec)

/-- Embedding of handleLike in pages/trending.tsx: read the video, decide
isLiked from the likedBy flag, then issue two writes: an atomic-increment
update of the likes counter followed by a set (or delete) of the flag at
videos/<videoId>/likedBy/<uid>.  A missing video is a no-op. -/
def handleLikeTrending (db : VideosDB) (videoId uid : String) : VideosDB :=
  match lookupA db videoId with
  | none => db
  | some v =>
    if uid ∈ v.likedBy then
      let db1 := updateA db videoId (fun w => { w with likes := w.likes - 1 })
      updateA db1 videoId
        (fun w => { w with likedBy := w.likedBy.filter (fun x => x != uid) })
    else
      let db1 := updateA db videoId (fun w => { w with likes := w.likes + 1 })
      updateA db1 videoId
        (fun w => { w with likedBy :=
          if uid ∈ w.likedBy then w.likedBy else uid :: w.likedBy })

/-- Embedding of the mutation function of useLikeVideo in hooks/useVideos.ts:
the caller passes isLiked; the counter is moved by an atomic increment of
plus or minus one and the flag at videos/<videoId>/likedBy/<uid> is set to
true or deleted. -/
def useLikeVideoMutation (db : VideosDB) (videoId uid : String)
    (isLiked : Bool) : VideosDB :=
  let db1 := updateA db videoId
    (fun w => { w with likes := w.likes + (if isLiked then -1 else 1) })
  if isLiked then
    updateA db1 videoId
      (fun w => { w with likedBy := w.likedBy.filter (fun x => x != uid) })
  else
    updateA db1 videoId
      (fun w => { w with likedBy :=
        if uid ∈ w.likedBy then w.likedBy else uid :: w.likedBy })

/-- Embedding of handleLike in the first revision of pages/index.tsx: read
the video, then issue one update writing the flag and the literal counter
value computed from the read (read-modify-write, not an atomic increment). -/
def handleLikeIndex (db : VideosDB) (videoId uid : String) : VideosDB :=
  match lookupA db videoId with
  | none => db
  | some v =>
    if uid ∈ v.likedBy then
      updateA db videoId
        (fun w => { w with likes := v.likes - 1,
                           likedBy := w.likedBy.filter (fun x => x != uid) })
    else
      updateA db videoId
        (fun w => { w with likes := v.likes + 1,
                           likedBy :=
                             if uid ∈ w.likedBy then w.likedBy
                             else uid :: w.likedBy })

theorem likeSpec_trending (db : VideosDB) (videoId uid : String)
    (v : VideoRec) (hv : lookupA db videoId = some v) :
    ∃ v1, lookupA (handleLikeTrending db videoId uid) videoId = some v1 ∧
      (uid ∈ v.likedBy → v1.likes = v.likes - 1 ∧ uid ∉ v1.likedBy) ∧
      (uid ∉ v.likedBy → v1.likes = v.likes + 1 ∧ uid ∈ v1.likedBy) := by
  unfold handleLikeTrending
  rw [hv]
  by_cases h : uid ∈ v.likedBy
  · simp only [if_pos h]
    have hl : lookupA (updateA
        (updateA db videoId (fun w => { w with likes := w.likes - 1 })) videoId
        (fun w => { w with likedBy := w.likedBy.filter (fun x => x != uid) }))
        videoId
        = some { v with likes := v.likes - 1,
                        likedBy := v.likedBy.filter (fun x => x != uid) } := by
      rw [lookupA_updateA_self, lookupA_updateA_self, hv]; rfl
    refine ⟨_, hl, fun _ => ⟨rfl, ?_⟩, fun hc => absurd h hc⟩
    simp [List.mem_filter]
  · simp only [if_neg h]
    have hl : lookupA (updateA
        (updateA db videoId (fun w => { w with likes := w.likes + 1 })) videoId
        (fun w => { w with likedBy :=
          if uid ∈ w.likedBy then w.likedBy else uid :: w.likedBy })) videoId
        = some { v with likes := v.likes + 1, likedBy := uid :: v.likedBy } := by
      rw [lookupA_updateA_self, lookupA_updateA_self, hv]
      simp [h]
    exact ⟨_, hl, fun hc => absurd hc h, fun _ => ⟨rfl, List.mem_cons_self _ _⟩⟩

theorem likeSpec_mutation (db : VideosDB) (videoId uid : String)
    (v : VideoRec) (hv : lookupA db videoId = some v) (isLiked : Bool) :
    ∃ v1, lookupA (useLikeVideoMutation db videoId uid isLiked) videoId = some v1 ∧
      v1.likes = v.likes + (if isLiked then -1 else 1) ∧
      (isLiked = true → uid ∉ v1.likedBy) ∧
      (isLiked = false → uid ∈ v1.likedBy) := by
  cases isLiked with
  | true =>
    refine ⟨({ v with
        likes := v.likes + (-1 : Int),
        likedBy := v.likedBy.filter (fun x => x != uid) }), ?_, ?_, ?_, ?_⟩
    · simp [useLikeVideoMutation, lookupA_updateA_self, hv]
    · rfl
    · intro _
      simp [List.mem_filter]
    · intro hc
      exact absurd hc (by decide)
  | false =>
    refine ⟨({ v with
        likes := v.likes + (1 : Int),
        likedBy := if uid ∈ v.likedBy then v.likedBy else uid :: v.likedBy }),
      ?_, ?_, ?_, ?_⟩
    · simp [useLikeVideoMutation, lookupA_updateA_self, hv]
    · rfl
    · intro hc
      exact absurd hc (by decide)
    · intro _
      by_cases h : uid ∈ v.likedBy <;> simp [h]

theorem likeSpec_index (db : VideosDB) (videoId uid : String)
    (v : VideoRec) (hv : lookupA db videoId = some v) :
    ∃ v1, lookupA (handleLikeIndex db videoId uid) videoId = some v1 ∧
      (uid ∈ v.likedBy → v1.likes = v.likes - 1 ∧ uid ∉ v1.likedBy) ∧
      (uid ∉ v.likedBy → v1.likes = v.likes + 1 ∧ uid ∈ v1.likedBy) := by
  unfold handleLikeIndex
  rw [hv]
  by_cases h : uid ∈ v.likedBy
  · simp only [if_pos h]
    have hl : lookupA (updateA db videoId
        (fun w => { w with likes := v.likes - 1,
                           likedBy := w.likedBy.filter (fun x => x != uid) }))
        videoId
        = some { v with likes := v.likes - 1,
                        likedBy := v.likedBy.filter (fun x => x != uid) } := by
      rw [lookupA_updateA_self, hv]; rfl
    refine ⟨_, hl, fun _ => ⟨rfl, ?_⟩, fun hc => absurd h hc⟩
    simp [List.mem_filter]
  · simp only [if_neg h]
    have hl : lookupA (updateA db videoId
        (fun w => { w with likes := v.likes + 1,
                           likedBy :=
                             if uid ∈ w.likedBy then w.likedBy
                             else uid :: w.likedBy })) videoId
        = some { v with likes := v.likes + 1, likedBy := uid :: v.likedBy } := by
      rw [lookupA_updateA_self, hv]
      simp [h]
    exact ⟨_, hl, fun hc => absurd hc h, fun _ => ⟨rfl, List.mem_cons_self _ _⟩⟩

/-- Demo video used in concrete evaluations of the like toggle: its likes
counter is zero while the actor u1 still holds a likedBy flag. -/
def c1Video : VideoRec :=
  { id := "v1", userId := "owner", title := some "demo", videoUrl := "url",
    thumbnailUrl := "thumb", username := "owner", userImage := "img",
    likes := 0, comments := 0, views := 0, createdAt := 0,
    likedBy := ["u1"] }

/-- C1 counterexample: on a video whose likes counter is 0 while the actor
still holds a likedBy flag, the unlike action of the trending page, of the
useLikeVideo mutation and of the main page drives the counter to minus one,
not zero: no floor at zero is applied anywhere in the code. -/
theorem C1_counterexample :
    (lookupA (handleLikeTrending [("v1", c1Video)] "v1" "u1") "v1").map
        VideoRec.likes = some (-1) ∧
    (lookupA (useLikeVideoMutation [("v1", c1Video)] "v1" "u1" true) "v1").map
        VideoRec.likes = some (-1) ∧
    (lookupA (handleLikeIndex [("v1", c1Video)] "v1" "u1") "v1").map
        VideoRec.likes = some (-1) := by
  refine ⟨?_, ?_, ?_⟩ <;> decide

/-- C1 amended: the like counter has no floor at zero.  An unlike is only
issued by the toggles when the actor already holds the likedBy flag, so on an
already-unliked video the toggle performs a like (an increment), never a
decrement; and whenever the counter is at least one at the moment the flag is
present, the decrement of an unlike leaves the counter nonnegative.  Without
that precondition the counter goes negative, as the counterexample shows. -/
theorem C1_amended_no_floor (db : VideosDB) (videoId uid : String)
    (v : VideoRec) (hv : lookupA db videoId = some v) :
    (uid ∉ v.likedBy →
      (∃ v1, lookupA (handleLikeTrending db videoId uid) videoId = some v1 ∧
        v1.likes = v.likes + 1) ∧
      (∃ v1, lookupA (handleLikeIndex db videoId uid) videoId = some v1 ∧
        v1.likes = v.likes + 1)) ∧
    (uid ∈ v.likedBy → 1 ≤ v.likes →
      (∃ v1, lookupA (handleLikeTrending db videoId uid) videoId = some v1 ∧
        v1.likes = v.likes - 1 ∧ 0 ≤ v1.likes) ∧
      (∃ v1, lookupA (handleLikeIndex db videoId uid) videoId = some v1 ∧
        v1.likes = v.likes - 1 ∧ 0 ≤ v1.likes)) := by
  obtain ⟨vt, hvt, hvtIn, hvtOut⟩ := likeSpec_trending db videoId uid v hv
  obtain ⟨vi, hvi, hviIn, hviOut⟩ := likeSpec_index db videoId uid v hv
  constructor
  · intro hmem
    exact ⟨⟨vt, hvt, (hvtOut hmem).1⟩, ⟨vi, hvi, (hviOut hmem).1⟩⟩
  · intro hmem hone
    refine ⟨⟨vt, hvt, (hvtIn hmem).1, ?_⟩, ⟨vi, hvi, (hviIn hmem).1, ?_⟩⟩
    · rw [(hvtIn hmem).1]; omega
    · rw [(hviIn hmem).1]; omega

/-- Witness for the amended C1 theorem at a concrete store: a video with one
like and the flag present; the unlike lands exactly at zero, and an actor
without the flag triggers an increment. -/
theorem C1_amended_no_floor_witness :
    (∃ v1, lookupA (handleLikeTrending
        [("v1", { c1Video with likes := 1 })] "v1" "u1") "v1" = some v1 ∧
      v1.likes = 0 ∧ 0 ≤ v1.likes) := by
  have h := (C1_amended_no_floor [("v1", { c1Video with likes := 1 })] "v1" "u1"
    { c1Video with likes := 1 } (by rfl)).2 (by decide) (by decide)
  obtain ⟨⟨v1, hl, hlik, hpos⟩, -⟩ := h
  exact ⟨v1, hl, by simpa using hlik, hpos⟩

/-- C3: a single uncontended invocation of the like toggle on a video the
actor has not yet liked increments the likes counter by exactly one and sets
the flag at videos/<videoId>/likedBy/<actorId>; an invocation on a video the
actor has already liked decrements the counter by exactly one and deletes the
flag.  Stated for the trending page toggle and for the useLikeVideo mutation
invoked with the matching isLiked argument. -/
theorem C3_like_toggle (db : VideosDB) (videoId uid : String)
    (v : VideoRec) (hv : lookupA db videoId = some v) :
    (uid ∉ v.likedBy →
      (∃ v1, lookupA (handleLikeTrending db videoId uid) videoId = some v1 ∧
        v1.likes = v.likes + 1 ∧ uid ∈ v1.likedBy) ∧
      (∃ v1, lookupA (useLikeVideoMutation db videoId uid false) videoId = some v1 ∧
        v1.likes = v.likes + 1 ∧ uid ∈ v1.likedBy)) ∧
    (uid ∈ v.likedBy →
      (∃ v1, lookupA (handleLikeTrending db videoId uid) videoId = some v1 ∧
        v1.likes = v.likes - 1 ∧ uid ∉ v1.likedBy) ∧
      (∃ v1, lookupA (useLikeVideoMutation db videoId uid true) videoId = some v1 ∧
        v1.likes = v.likes - 1 ∧ uid ∉ v1.likedBy)) := by
  obtain ⟨vt, hvt, hvtIn, hvtOut⟩ := likeSpec_trending db videoId uid v hv
  obtain ⟨vmT, hmT, hmTlik, hmTout, -⟩ := likeSpec_mutation db videoId uid v hv true
  obtain ⟨vmF, hmF, hmFlik, -, hmFin⟩ := likeSpec_mutation db videoId uid v hv false
  constructor
  · intro hmem
    refine ⟨⟨vt, hvt, (hvtOut hmem).1, (hvtOut hmem).2⟩,
      ⟨vmF, hmF, ?_, hmFin rfl⟩⟩
    simpa using hmFlik
  · intro hmem
    refine ⟨⟨vt, hvt, (hvtIn hmem).1, (hvtIn hmem).2⟩,
      ⟨vmT, hmT, ?_, hmTout rfl⟩⟩
    rw [hmTlik]
    show v.likes + -1 = v.likes - 1
    omega

/-- Witness for the C3 theorem at a concrete store: liking a fresh video
moves its counter from 5 to 6 and records the flag. -/
theorem C3_like_toggle_witness :
    ∃ v1, lookupA (handleLikeTrending
        [("v1", { c1Video with likedBy := [], likes := 5 })] "v1" "u1") "v1"
        = some v1 ∧ v1.likes = 6 ∧ "u1" ∈ v1.likedBy := by
  have h := (C3_like_toggle [("v1", { c1Video with likedBy := [], likes := 5 })]
    "v1" "u1" { c1Video with likedBy := [], likes := 5 } (by rfl)).1 (by decide)
  obtain ⟨⟨v1, hl, hlik, hmem⟩, -⟩ := h
  exact ⟨v1, hl, by simpa using hlik, hmem⟩

/-! ### Profiles and the follow recorder

The profile record stored at users/<uid>/profile, and the slices of the store
touched by the follow button of the profile page: the legacy follows index
read by checkFollowStatus, and the userFollowing and userFollowers indexes
written by handleFollow. -/

structure ProfileRec where
  name : String
  email : String
  city : String
  state : String
  avatarUrl : String
  followers : Int
  following : Int
deriving Repr, DecidableEq

structure FollowDB where
  profiles : List (String × ProfileRec)
  follows : List (String × String)
  userFollowing : List (String × String)
  userFollowers : List (String × String)
deriving Repr, DecidableEq

def setEdge (l : List (String × String)) (e : String × String) :
    List (String × String) :=
  if e ∈ l then l else e :: l

def removeEdge (l : List (String × String)) (e : String × String) :
    List (String × String) :=
  l.filter (fun x => x != e)

/-- Embedding of checkFollowStatus in pages/profile/id: the follow status is
read from the follows index, keyed follower first. -/
def checkFollowStatus (db : FollowDB) (uid profileId : String) : Bool :=
  decide ((uid, profileId) ∈ db.follows)

/-- Write both follow edges: userFollowing keyed follower first and
userFollowers keyed followee first, as the follow branch of handleFollow
does. -/
def applyFollowEdges (db : FollowDB) (uid profileId : String) : FollowDB :=
  { db with userFollowing := setEdge db.userFollowing (uid, profileId),
            userFollowers := setEdge db.userFollowers (profileId, uid) }

/-- Remove both follow edges, as the unfollow branch of handleFollow does. -/
def removeFollowEdges (db : FollowDB) (uid profileId : String) : FollowDB :=
  { db with userFollowing := removeEdge db.userFollowing (uid, profileId),
            userFollowers := removeEdge db.userFollowers (profileId, uid) }

/-- Read the followee profile and, when it exists, write it back whole with
the followers counter raised by one. -/
def bumpFollowers (db : FollowDB) (k : String) : FollowDB :=
  match lookupA db.profiles k with
  | some p =>
    { db with
      profiles := setA db.profiles k ({ p with followers := p.followers + 1 }) }
  | none => db

/-- Read the follower profile and, when it exists, write it back whole with
the following counter raised by one. -/
def bumpFollowing (db : FollowDB) (k : String) : FollowDB :=
  match lookupA db.profiles k with
  | some p =>
    { db with
      profiles := setA db.profiles k ({ p with following := p.following + 1 }) }
  | none => db

/-- Read the followee profile and, when it exists, write it back whole with
the followers counter lowered by one and clamped at zero. -/
def dropFollowers (db : FollowDB) (k : String) : FollowDB :=
  match lookupA db.profiles k with
  | some p =>
    { db with
      profiles :=
        setA db.profiles k ({ p with followers := max 0 (p.followers - 1) }) }
  | none => db

/-- Read the follower profile and, when it exists, write it back whole with
the following counter lowered by one and clamped at zero. -/
def dropFollowing (db : FollowDB) (k : String) : FollowDB :=
  match lookupA db.profiles k with
  | some p =>
    { db with
      profiles :=
        setA db.profiles k ({ p with following := max 0 (p.following - 1) }) }
  | none => db

/-- Embedding of handleFollow in pages/profile/id: a no-op on the own
profile; otherwise, depending on the isFollowing component state, either the
unfollow sequence (remove both edges, then decrement both counters with a
floor at zero) or the follow sequence (write both edges, then increment both
counters), each counter write being a whole-profile read-then-set. -/
def handleFollow (db : FollowDB) (uid profileId : String)
    (isFollowing : Bool) : FollowDB :=
  if uid = profileId then db
  else if isFollowing then
    dropFollowing (dropFollowers (removeFollowEdges db uid profileId) profileId) uid
  else
    bumpFollowing (bumpFollowers (applyFollowEdges db uid profileId) profileId) uid

theorem mem_setEdge_self (l : List (String × String)) (e : String × String) :
    e ∈ setEdge l e := by
  unfold setEdge
  by_cases h : e ∈ l
  · simp [h]
  · simp [h]

theorem not_mem_removeEdge (l : List (String × String))
    (e : String × String) : e ∉ removeEdge l e := by
  simp [removeEdge, List.mem_filter]

theorem bumpFollowers_eq (db : FollowDB) (k : String) (p : ProfileRec)
    (hp : lookupA db.profiles k = some p) :
    bumpFollowers db k =
      { db with
        profiles := setA db.profiles k ({ p with followers := p.followers + 1 }) } := by
  unfold bumpFollowers
  rw [hp]

theorem bumpFollowing_eq (db : FollowDB) (k : String) (p : ProfileRec)
    (hp : lookupA db.profiles k = some p) :
    bumpFollowing db k =
      { db with
        profiles := setA db.profiles k ({ p with following := p.following + 1 }) } := by
  unfold bumpFollowing
  rw [hp]

theorem dropFollowers_eq (db : FollowDB) (k : String) (p : ProfileRec)
    (hp : lookupA db.profiles k = some p) :
    dropFollowers db k =
      { db with
        profiles :=
          setA db.profiles k ({ p with followers := max 0 (p.followers - 1) }) } := by
  unfold dropFollowers
  rw [hp]

theorem dropFollowing_eq (db : FollowDB) (k : String) (p : ProfileRec)
    (hp : lookupA db.profiles k = some p) :
    dropFollowing db k =
      { db with
        profiles :=
          setA db.profiles k ({ p with following := max 0 (p.following - 1) }) } := by
  unfold dropFollowing
  rw [hp]

/-- Normal form of a follow action between distinct users whose profiles both
exist: both edges written, followee followers and follower following each
raised by one, follows index untouched. -/
theorem handleFollow_false_shape (db : FollowDB) (u1 u2 : String)
    (hne : u1 ≠ u2) (p1 p2 : ProfileRec)
    (h1 : lookupA db.profiles u1 = some p1)
    (h2 : lookupA db.profiles u2 = some p2) :
    handleFollow db u1 u2 false =
      { profiles := setA (setA db.profiles u2
            { p2 with followers := p2.followers + 1 }) u1
            { p1 with following := p1.following + 1 },
        follows := db.follows,
        userFollowing := setEdge db.userFollowing (u1, u2),
        userFollowers := setEdge db.userFollowers (u2, u1) } := by
  have hB : bumpFollowers (applyFollowEdges db u1 u2) u2 =
      { db with
        profiles := setA db.profiles u2
          { p2 with followers := p2.followers + 1 },
        userFollowing := setEdge db.userFollowing (u1, u2),
        userFollowers := setEdge db.userFollowers (u2, u1) } :=
    bumpFollowers_eq (applyFollowEdges db u1 u2) u2 p2 h2
  have hq : lookupA (bumpFollowers (applyFollowEdges db u1 u2) u2).profiles u1
      = some p1 := by
    rw [hB]
    exact (lookupA_setA_ne _ _ _ _ (Ne.symm hne)).trans h1
  have hC := bumpFollowing_eq _ u1 p1 hq
  unfold handleFollow
  rw [if_neg hne]
  show bumpFollowing (bumpFollowers (applyFollowEdges db u1 u2) u2) u1 = _
  rw [hC, hB]

/-- Normal form of an unfollow action between distinct users whose profiles
both exist: both edges removed, both counters lowered by one with a floor at
zero, follows index untouched. -/
theorem handleFollow_true_shape (db : FollowDB) (u1 u2 : String)
    (hne : u1 ≠ u2) (p1 p2 : ProfileRec)
    (h1 : lookupA db.profiles u1 = some p1)
    (h2 : lookupA db.profiles u2 = some p2) :
    handleFollow db u1 u2 true =
      { profiles := setA (setA db.profiles u2
            { p2 with followers := max 0 (p2.followers - 1) }) u1
            { p1 with following := max 0 (p1.following - 1) },
        follows := db.follows,
        userFollowing := removeEdge db.userFollowing (u1, u2),
        userFollowers := removeEdge db.userFollowers (u2, u1) } := by
  have hB : dropFollowers (removeFollowEdges db u1 u2) u2 =
      { db with
        profiles := setA db.profiles u2
          { p2 with followers := max 0 (p2.followers - 1) },
        userFollowing := removeEdge db.userFollowing (u1, u2),
        userFollowers := removeEdge db.userFollowers (u2, u1) } :=
    dropFollowers_eq (removeFollowEdges db u1 u2) u2 p2 h2
  have hq : lookupA (dropFollowers (removeFollowEdges db u1 u2) u2).profiles u1
      = some p1 := by
    rw [hB]
    exact (lookupA_setA_ne _ _ _ _ (Ne.symm hne)).trans h1
  have hC := dropFollowing_eq _ u1 p1 hq
  unfold handleFollow
  rw [if_neg hne]
  show dropFollowing (dropFollowers (removeFollowEdges db u1 u2) u2) u1 = _
  rw [hC, hB]

/-- Demo profile with both counters at zero, used in concrete follow
evaluations. -/
def demoProfile (n : String) : ProfileRec :=
  { name := n, email := "", city := "", state := "", avatarUrl := "",
    followers := 0, following := 0 }

/-- Demo follow store: two profiles with zero counters, no edges anywhere. -/
def followDemoDB : FollowDB :=
  { profiles := [("u1", demoProfile "u1"), ("u2", demoProfile "u2")],
    follows := [], userFollowing := [], userFollowers := [] }

/-- C2: for two distinct accounts with both counters zero and no edge, a
follow through the profile page leaves the following counter of the follower
at one, the followers counter of the followee at one, and both edges in the
userFollowing and userFollowers indexes; the subsequent unfollow returns both
counters to zero and removes the edge from both indexes. -/
theorem C2_follow_unfollow (db : FollowDB) (u1 u2 : String) (hne : u1 ≠ u2)
    (p1 p2 : ProfileRec)
    (h1 : lookupA db.profiles u1 = some p1) (hf1 : p1.following = 0)
    (h2 : lookupA db.profiles u2 = some p2) (hf2 : p2.followers = 0) :
    (lookupA (handleFollow db u1 u2 false).profiles u1).map
        ProfileRec.following = some 1 ∧
    (lookupA (handleFollow db u1 u2 false).profiles u2).map
        ProfileRec.followers = some 1 ∧
    (u2, u1) ∈ (handleFollow db u1 u2 false).userFollowers ∧
    (u1, u2) ∈ (handleFollow db u1 u2 false).userFollowing ∧
    (lookupA (handleFollow (handleFollow db u1 u2 false) u1 u2 true).profiles
        u1).map ProfileRec.following = some 0 ∧
    (lookupA (handleFollow (handleFollow db u1 u2 false) u1 u2 true).profiles
        u2).map ProfileRec.followers = some 0 ∧
    (u1, u2) ∉ (handleFollow (handleFollow db u1 u2 false) u1 u2 true).userFollowing ∧
    (u2, u1) ∉ (handleFollow (handleFollow db u1 u2 false) u1 u2 true).userFollowers := by
  have hD1 := handleFollow_false_shape db u1 u2 hne p1 p2 h1 h2
  have hl1 : lookupA (handleFollow db u1 u2 false).profiles u1
      = some ({ p1 with following := p1.following + 1 }) := by
    rw [hD1]
    exact lookupA_setA_self _ _ _
  have hl2 : lookupA (handleFollow db u1 u2 false).profiles u2
      = some ({ p2 with followers := p2.followers + 1 }) := by
    rw [hD1]
    exact (lookupA_setA_ne _ _ _ _ hne).trans (lookupA_setA_self _ _ _)
  have hD2 := handleFollow_true_shape (handleFollow db u1 u2 false) u1 u2 hne
    ({ p1 with following := p1.following + 1 })
    ({ p2 with followers := p2.followers + 1 }) hl1 hl2
  refine ⟨?_, ?_, ?_, ?_, ?_, ?_, ?_, ?_⟩
  · rw [hl1]
    simp [hf1]
  · rw [hl2]
    simp [hf2]
  · rw [hD1]
    exact mem_setEdge_self _ _
  · rw [hD1]
    exact mem_setEdge_self _ _
  · rw [hD2, lookupA_setA_self]
    simp [hf1]
  · rw [hD2, lookupA_setA_ne _ _ _ _ hne, lookupA_setA_self]
    simp [hf2]
  · rw [hD2]
    exact not_mem_removeEdge _ _
  · rw [hD2]
    exact not_mem_removeEdge _ _

/-- Witness for the C2 theorem on the demo store. -/
theorem C2_follow_unfollow_witness :
    (lookupA (handleFollow followDemoDB "u1" "u2" false).profiles "u2").map
        ProfileRec.followers = some 1 ∧
    (lookupA (handleFollow (handleFollow followDemoDB "u1" "u2" false)
        "u1" "u2" true).profiles "u2").map ProfileRec.followers = some 0 := by
  have h := C2_follow_unfollow followDemoDB "u1" "u2" (by decide)
    (demoProfile "u1") (demoProfile "u2") (by rfl) (by rfl) (by rfl) (by rfl)
  exact ⟨h.2.1, h.2.2.2.2.2.1⟩

/-- C8: the follow action of the profile page and its follow-status check use
disjoint store paths.  A follow writes only the userFollowing and
userFollowers indexes and never the follows index that checkFollowStatus
reads, so the status check reports the same answer as before the follow; and
repeating the follow action increments both profile counters a second
time. -/
theorem C8_disjoint_follow_paths (db : FollowDB) (u1 u2 : String)
    (hne : u1 ≠ u2) (p1 p2 : ProfileRec)
    (h1 : lookupA db.profiles u1 = some p1)
    (h2 : lookupA db.profiles u2 = some p2) :
    (handleFollow db u1 u2 false).follows = db.follows ∧
    checkFollowStatus (handleFollow db u1 u2 false) u1 u2
      = checkFollowStatus db u1 u2 ∧
    (u1, u2) ∈ (handleFollow db u1 u2 false).userFollowing ∧
    (lookupA (handleFollow db u1 u2 false).profiles u2).map
        ProfileRec.followers = some (p2.followers + 1) ∧
    (lookupA (handleFollow (handleFollow db u1 u2 false) u1 u2 false).profiles
        u2).map ProfileRec.followers = some (p2.followers + 2) ∧
    (lookupA (handleFollow (handleFollow db u1 u2 false) u1 u2 false).profiles
        u1).map ProfileRec.following = some (p1.following + 2) := by
  have hD1 := handleFollow_false_shape db u1 u2 hne p1 p2 h1 h2
  have hl1 : lookupA (handleFollow db u1 u2 false).profiles u1
      = some ({ p1 with following := p1.following + 1 }) := by
    rw [hD1]
    exact lookupA_setA_self _ _ _
  have hl2 : lookupA (handleFollow db u1 u2 false).profiles u2
      = some ({ p2 with followers := p2.followers + 1 }) := by
    rw [hD1]
    exact (lookupA_setA_ne _ _ _ _ hne).trans (lookupA_setA_self _ _ _)
  have hD2 := handleFollow_false_shape (handleFollow db u1 u2 false) u1 u2 hne
    ({ p1 with following := p1.following + 1 })
    ({ p2 with followers := p2.followers + 1 }) hl1 hl2
  refine ⟨?_, ?_, ?_, ?_, ?_, ?_⟩
  · rw [hD1]
  · unfold checkFollowStatus
    rw [hD1]
  · rw [hD1]
    exact mem_setEdge_self _ _
  · rw [hl2]
    rfl
  · rw [hD2, lookupA_setA_ne _ _ _ _ hne, lookupA_setA_self]
    simp
    omega
  · rw [hD2, lookupA_setA_self]
    simp
    omega

/-- Witness for the C8 theorem on the demo store: after two follows through
the page the followee followers counter reads two, while the status check
still reports not-following. -/
theorem C8_disjoint_follow_paths_witness :
    checkFollowStatus (handleFollow followDemoDB "u1" "u2" false) "u1" "u2"
      = checkFollowStatus followDemoDB "u1" "u2" ∧
    (lookupA (handleFollow (handleFollow followDemoDB "u1" "u2" false)
        "u1" "u2" false).profiles "u2").map ProfileRec.followers = some 2 := by
  have h := C8_disjoint_follow_paths followDemoDB "u1" "u2" (by decide)
    (demoProfile "u1") (demoProfile "u2") (by rfl) (by rfl)
  exact ⟨h.2.1, h.2.2.2.2.1⟩

/-! ### Hierarchical store tree and the profile-edit save

The profile-edit save of the profile page writes with set to the whole
users/<userId> node, so it is modelled on a generic store tree in which a set
at a path replaces the entire subtree there. -/

inductive DbTree where
  | strV : String → DbTree
  | numV : Int → DbTree
  | boolV : Bool → DbTree
  | node : List (String × DbTree) → DbTree
deriving Repr

def getChild (cs : List (String × DbTree)) (k : String) : Option DbTree :=
  match cs with
  | [] => none
  | (k', t) :: rest => if k' = k then some t else getChild rest k

def setChild (cs : List (String × DbTree)) (k : String) (v : DbTree) :
    List (String × DbTree) :=
  match cs with
  | [] => [(k, v)]
  | (k', t) :: rest =>
    if k' = k then (k', v) :: rest else (k', t) :: setChild rest k v

/-- Read of the subtree at a path, as the get calls of the client do. -/
def DbTree.getAt : List String → DbTree → Option DbTree
  | [], t => some t
  | k :: ks, .node cs => (getChild cs k).bind (DbTree.getAt ks)
  | _ :: _, _ => none

/-- Write with set at a path: the subtree there is replaced wholly by the new
value, and missing intermediate nodes are created. -/
def DbTree.setAt : List String → DbTree → DbTree → DbTree
  | [], _, v => v
  | k :: ks, t, v =>
    let cs := match t with
      | .node cs => cs
      | _ => []
    let child := match getChild cs k with
      | some c => c
      | none => .node []
    .node (setChild cs k (DbTree.setAt ks child v))

theorem getChild_setChild_self (cs : List (String × DbTree)) (k : String)
    (v : DbTree) : getChild (setChild cs k v) k = some v := by
  induction cs with
  | nil => simp [getChild, setChild]
  | cons p rest ih =>
    obtain ⟨k', t⟩ := p
    by_cases h : k' = k
    · simp [getChild, setChild, h]
    · simp [getChild, setChild, h, ih]

theorem getAt_setAt_append (p : List String) (q : List String) (t v : DbTree) :
    DbTree.getAt (p ++ q) (DbTree.setAt p t v) = DbTree.getAt q v := by
  induction p generalizing t with
  | nil => rfl
  | cons k ks ih =>
    show DbTree.getAt (k :: (ks ++ q)) (DbTree.setAt (k :: ks) t v) = _
    unfold DbTree.setAt
    simp only [DbTree.getAt, getChild_setChild_self, Option.bind_some]
    exact ih _

/-- The in-memory profile view held by the profile page component: exactly
the fields of the UserProfile interface. -/
structure ProfileView where
  username : String
  email : String
  bio : String
  profilePicture : String
  followers : Int
  following : Int
  createdAt : String
deriving Repr, DecidableEq

/-- The object written by the profile-edit save, as a store subtree. -/
def ProfileView.toTree (pv : ProfileView) : DbTree :=
  .node [("username", .strV pv.username), ("email", .strV pv.email),
         ("bio", .strV pv.bio), ("profilePicture", .strV pv.profilePicture),
         ("followers", .numV pv.followers), ("following", .numV pv.following),
         ("createdAt", .strV pv.createdAt)]

/-- Embedding of handleProfileUpdate in pages/profile/id: the component
profile state, with the new bio and picture merged in, is written with set to
the whole users/<userId> node. -/
def handleProfileUpdate (db : DbTree) (userId : String) (pv : ProfileView)
    (newBio newPic : String) : DbTree :=
  DbTree.setAt ["users", userId] db
    (ProfileView.toTree { pv with bio := newBio, profilePicture := newPic })

/-- C9: the profile-edit save writes the merged profile object with set to
the whole users/<userId> node, so after a successful save the profile
subtree at users/<uid>/profile and the videos index at users/<uid>/videos are
no longer present under that node, whatever they held before. -/
theorem C9_profile_edit_wipes_user_node (db : DbTree) (uid : String)
    (pv : ProfileView) (newBio newPic : String)
    (_hprof : (DbTree.getAt ["users", uid, "profile"] db).isSome)
    (_hvids : (DbTree.getAt ["users", uid, "videos"] db).isSome) :
    DbTree.getAt ["users", uid, "profile"]
      (handleProfileUpdate db uid pv newBio newPic) = none ∧
    DbTree.getAt ["users", uid, "videos"]
      (handleProfileUpdate db uid pv newBio newPic) = none := by
  constructor
  · have h := getAt_setAt_append ["users", uid] ["profile"] db
      (ProfileView.toTree { pv with bio := newBio, profilePicture := newPic })
    rw [show (["users", uid] ++ ["profile"]) = ["users", uid, "profile"] from rfl] at h
    rw [handleProfileUpdate, h]
    rfl
  · have h := getAt_setAt_append ["users", uid] ["videos"] db
      (ProfileView.toTree { pv with bio := newBio, profilePicture := newPic })
    rw [show (["users", uid] ++ ["videos"]) = ["users", uid, "videos"] from rfl] at h
    rw [handleProfileUpdate, h]
    rfl

/-- Demo user node carrying a profile subtree and a videos index. -/
def c9Db : DbTree :=
  .node [("users", .node [("u1", .node
    [("profile", .node [("name", .strV "u1")]),
     ("videos", .node [("v1", .boolV true)])])])]

/-- Witness for the C9 theorem: on a store whose user node has both a profile
subtree and a videos index, the save leaves neither present. -/
theorem C9_profile_edit_wipes_user_node_witness :
    DbTree.getAt ["users", "u1", "profile"]
      (handleProfileUpdate c9Db "u1"
        { username := "u1", email := "", bio := "", profilePicture := "",
          followers := 0, following := 0, createdAt := "" } "hi" "pic") = none ∧
    DbTree.getAt ["users", "u1", "videos"]
      (handleProfileUpdate c9Db "u1"
        { username := "u1", email := "", bio := "", profilePicture := "",
          followers := 0, following := 0, createdAt := "" } "hi" "pic") = none :=
  C9_profile_edit_wipes_user_node c9Db "u1"
    { username := "u1", email := "", bio := "", profilePicture := "",
      followers := 0, following := 0, createdAt := "" } "hi" "pic"
    (by rfl) (by rfl)

/-! ### Comment recording

Two comment-recording paths exist: handleComment on the main page writes the
comment record, an author-side index entry and an atomic counter increment;
handleSubmitComment in the comment modal writes the record and a
read-then-set counter increment but no author-side index. -/

def jsOrStr (s d : String) : String := if s = "" then d else s

/-- Embedding of the JavaScript string trim: strip whitespace from both
ends.  Defined over the character list so that it evaluates by kernel
reduction. -/
def jsTrim (s : String) : String :=
  String.mk
    (((s.toList.dropWhile Char.isWhitespace).reverse.dropWhile
        Char.isWhitespace).reverse)

structure CommentRec where
  userId : String
  text : String
  createdAt : Int
  id : Option String
  username : Option String
  userImage : Option String
deriving Repr, DecidableEq

structure CommentsDB where
  videos : VideosDB
  videoComments : List (String × List (String × CommentRec))
  userComments : List (String × List String)
deriving Repr, DecidableEq

/-- Write of a comment record at videoComments/<videoId>/<commentId>,
creating the bucket when absent. -/
def setVideoComment (m : List (String × List (String × CommentRec)))
    (videoId commentId : String) (c : CommentRec) :
    List (String × List (String × CommentRec)) :=
  match lookupA m videoId with
  | some bucket => setA m videoId (setA bucket commentId c)
  | none => (videoId, [(commentId, c)]) :: m

/-- Write of a true flag at userComments/<uid>/<commentId>, creating the
bucket when absent. -/
def setUserComment (m : List (String × List String)) (uid commentId : String) :
    List (String × List String) :=
  match lookupA m uid with
  | some l => setA m uid (if commentId ∈ l then l else commentId :: l)
  | none => (uid, [commentId]) :: m

def getComment (m : List (String × List (String × CommentRec)))
    (videoId commentId : String) : Option CommentRec :=
  (lookupA m videoId).bind (fun b => lookupA b commentId)

def userCommentIds (m : List (String × List String)) (uid : String) :
    List String :=
  (lookupA m uid).getD []

theorem getComment_setVideoComment_self
    (m : List (String × List (String × CommentRec)))
    (videoId commentId : String) (c : CommentRec) :
    getComment (setVideoComment m videoId commentId c) videoId commentId
      = some c := by
  unfold getComment setVideoComment
  cases h : lookupA m videoId with
  | none => simp [lookupA, lookupA_setA_self]
  | some bucket => simp [lookupA_setA_self]

theorem mem_setUserComment_self (m : List (String × List String))
    (uid commentId : String) :
    commentId ∈ userCommentIds (setUserComment m uid commentId) uid := by
  unfold userCommentIds setUserComment
  cases h : lookupA m uid with
  | none => simp [lookupA]
  | some l =>
    rw [lookupA_setA_self]
    by_cases hc : commentId ∈ l <;> simp [hc]

/-- Embedding of handleComment in the first revision of pages/index.tsx:
with a fresh identifier, write the comment record at
videoComments/<videoId>/<id>, write a true flag at userComments/<uid>/<id>,
and raise the video comments counter with an atomic increment.  The three
writes touch disjoint top-level slices of the store. -/
def handleComment (db : CommentsDB)
    (videoId uid displayName photoURL text newCommentId : String)
    (now : Int) : CommentsDB :=
  if jsTrim text = "" then db
  else
    { videos := updateA db.videos videoId
        (fun v => { v with comments := v.comments + 1 }),
      videoComments := setVideoComment db.videoComments videoId newCommentId
        { userId := uid, text := jsTrim text, createdAt := now,
          id := some newCommentId,
          username := some (jsOrStr displayName "Anonymous"),
          userImage := some (jsOrStr photoURL "/default-avatar.png") },
      userComments := setUserComment db.userComments uid newCommentId }

/-- Embedding of handleSubmitComment in the comment modal: with a fresh push
identifier, write the comment record at videoComments/<videoId>/<id>, then
read the video and, when it exists, set it back whole with the comments
counter raised by one.  No author-side index is written. -/
def handleSubmitComment (db : CommentsDB)
    (videoId uid text newCommentId : String) (now : Int) : CommentsDB :=
  if jsTrim text = "" then db
  else
    let newComments := setVideoComment db.videoComments videoId newCommentId
      { userId := uid, text := jsTrim text, createdAt := now,
        id := none, username := none, userImage := none }
    match lookupA db.videos videoId with
    | some v =>
      { videos := setA db.videos videoId ({ v with comments := v.comments + 1 }),
        videoComments := newComments,
        userComments := db.userComments }
    | none => { db with videoComments := newComments }

/-- Demo comment store: one video with zero comments and empty comment
indexes. -/
def c4DB : CommentsDB :=
  { videos := [("v1", { c1Video with likedBy := [] })],
    videoComments := [], userComments := [] }

/-- C4 counterexample: recording a comment through the comment modal writes
the record under the video and raises the counter, but the fresh identifier
is never indexed under the author: the userComments node stays empty, against
the claim that every comment recording indexes the identifier under the
author comment list. -/
theorem C4_counterexample :
    (getComment (handleSubmitComment c4DB "v1" "u1" "hi" "c1" 5).videoComments
        "v1" "c1").map (fun c => (c.userId, c.text)) = some ("u1", "hi") ∧
    (lookupA (handleSubmitComment c4DB "v1" "u1" "hi" "c1" 5).videos
        "v1").map VideoRec.comments = some 1 ∧
    userCommentIds (handleSubmitComment c4DB "v1" "u1" "hi" "c1" 5).userComments
        "u1" = [] := by
  refine ⟨?_, ?_, ?_⟩ <;> decide

/-- C4 amended: both recording paths generate a fresh identifier, write the
comment record under videoComments/<videoId> and raise the video comments
counter by exactly one; only the main-page path additionally indexes the
identifier under the author comment list, while the comment-modal path
leaves the author index untouched. -/
theorem C4_amended_comment_recording (db : CommentsDB)
    (videoId uid dn pu text newId : String) (now : Int) (v : VideoRec)
    (hv : lookupA db.videos videoId = some v) (ht : jsTrim text ≠ "") :
    (getComment (handleComment db videoId uid dn pu text newId now).videoComments
        videoId newId).map (fun c => (c.userId, c.text)) = some (uid, jsTrim text) ∧
    (lookupA (handleComment db videoId uid dn pu text newId now).videos
        videoId).map VideoRec.comments = some (v.comments + 1) ∧
    newId ∈ userCommentIds
        (handleComment db videoId uid dn pu text newId now).userComments uid ∧
    (getComment (handleSubmitComment db videoId uid text newId now).videoComments
        videoId newId).map (fun c => (c.userId, c.text)) = some (uid, jsTrim text) ∧
    (lookupA (handleSubmitComment db videoId uid text newId now).videos
        videoId).map VideoRec.comments = some (v.comments + 1) ∧
    (handleSubmitComment db videoId uid text newId now).userComments
      = db.userComments := by
  unfold handleComment handleSubmitComment
  rw [if_neg ht, if_neg ht, hv]
  refine ⟨?_, ?_, ?_, ?_, ?_, ?_⟩
  · rw [getComment_setVideoComment_self]
    rfl
  · rw [lookupA_updateA_self, hv]
    rfl
  · exact mem_setUserComment_self _ _ _
  · rw [getComment_setVideoComment_self]
    rfl
  · rw [lookupA_setA_self]
    rfl
  · rfl

/-- Witness for the amended C4 theorem on the demo store: the main-page path
indexes the fresh identifier under the author. -/
theorem C4_amended_comment_recording_witness :
    "c1" ∈ userCommentIds
      (handleComment c4DB "v1" "u1" "dn" "pu" "hi" "c1" 5).userComments "u1" ∧
    (lookupA (handleComment c4DB "v1" "u1" "dn" "pu" "hi" "c1" 5).videos
        "v1").map VideoRec.comments = some 1 := by
  have h := C4_amended_comment_recording c4DB "v1" "u1" "dn" "pu" "hi" "c1" 5
    ({ c1Video with likedBy := [] }) (by rfl) (by decide)
  exact ⟨h.2.2.1, h.2.1⟩

/-! ### Feed assembly

The feed assembler materializes the whole videos collection, join-fetches
the owner profile of each record, and produces the three trending views by
an in-memory descending sort followed by a take of three; the useVideos hook
instead takes the first limit records in enumeration order with no sort. -/

/-- Profile join performed per record while materializing a feed: the id is
attached and username and avatar fall back to defaults. -/
def enrichVideo (profiles : List (String × ProfileRec)) (key : String)
    (v : VideoRec) : VideoRec :=
  { v with id := key,
           username :=
             jsOrStr ((lookupA profiles v.userId).elim "" ProfileRec.name)
               "Anonymous",
           userImage :=
             jsOrStr ((lookupA profiles v.userId).elim "" ProfileRec.avatarUrl)
               "/default-avatar.png" }

def materializeAll (profiles : List (String × ProfileRec)) (db : VideosDB) :
    List VideoRec :=
  db.map (fun p => enrichVideo profiles p.1 p.2)

/-- Embedding of the in-memory descending sort by a numeric key used by the
trending views. -/
def sortByDesc (key : VideoRec → Int) (l : List VideoRec) : List VideoRec :=
  List.insertionSort (fun a b => key b ≤ key a) l

structure TrendingVideos where
  mostLiked : List VideoRec
  mostCommented : List VideoRec
  recent : List VideoRec
deriving Repr, DecidableEq

/-- Embedding of the query function of useTrendingVideos in
hooks/useVideos.ts: materialize everything, then sort descending by likes,
by comments and by creation time, each followed by a take of three. -/
def useTrendingVideos (profiles : List (String × ProfileRec))
    (db : VideosDB) : TrendingVideos :=
  let allVideos := materializeAll profiles db
  { mostLiked := (sortByDesc (fun v => v.likes) allVideos).take 3,
    mostCommented := (sortByDesc (fun v => v.comments) allVideos).take 3,
    recent := (sortByDesc (fun v => v.createdAt) allVideos).take 3 }

/-- Embedding of the query function of the useVideos hook: materialize the
collection in enumeration order and slice the first limit records, with no
sort anywhere. -/
def useVideosFeed (profiles : List (String × ProfileRec)) (db : VideosDB)
    (limit : Nat) : List VideoRec :=
  (materializeAll profiles db).take limit

theorem sortByDesc_take_spec (key : VideoRec → Int) (l : List VideoRec)
    (n : Nat) :
    List.Pairwise (fun a b => key b ≤ key a) ((sortByDesc key l).take n) ∧
    List.Perm l ((sortByDesc key l).take n ++ (sortByDesc key l).drop n) ∧
    ∀ a ∈ (sortByDesc key l).take n, ∀ b ∈ (sortByDesc key l).drop n,
      key b ≤ key a := by
  haveI : IsTotal VideoRec (fun a b => key b ≤ key a) :=
    ⟨fun a b => le_total (key b) (key a)⟩
  haveI : IsTrans VideoRec (fun a b => key b ≤ key a) :=
    ⟨fun a b c h1 h2 => le_trans h2 h1⟩
  have hs : List.Sorted (fun a b => key b ≤ key a) (sortByDesc key l) :=
    List.sorted_insertionSort _ l
  refine ⟨hs.sublist (List.take_sublist n _), ?_, ?_⟩
  · have hp := (List.perm_insertionSort (fun a b => key b ≤ key a) l).symm
    rwa [← List.take_append_drop n
      (List.insertionSort (fun a b => key b ≤ key a) l)] at hp
  · intro a ha b hb
    exact hs.rel_of_mem_take_of_mem_drop ha hb

/-- Demo feed video with a given creation timestamp. -/
def c5Video (n : Int) : VideoRec :=
  { c1Video with likedBy := [], createdAt := n }

/-- Demo feed store: eleven videos enumerated oldest first. -/
def c5Db : VideosDB :=
  [("a", c5Video 0), ("b", c5Video 1), ("c", c5Video 2), ("d", c5Video 3),
   ("e", c5Video 4), ("f", c5Video 5), ("g", c5Video 6), ("h", c5Video 7),
   ("i", c5Video 8), ("j", c5Video 9), ("k", c5Video 10)]

/-- C5 counterexample: the useVideos hook takes its ten-record page before
any sort, in store enumeration order, so on a store whose newest video is
enumerated last the returned page is the ten oldest records and misses the
globally most recent one, against the claim that every fixed-size prefix is
taken only after the sort. -/
theorem C5_counterexample :
    (useVideosFeed [] c5Db 10).map VideoRec.createdAt
      = [0, 1, 2, 3, 4, 5, 6, 7, 8, 9] ∧
    (10 : Int) ∉ (useVideosFeed [] c5Db 10).map VideoRec.createdAt ∧
    ((sortByDesc (fun v => v.createdAt) (materializeAll [] c5Db)).take 10).map
        VideoRec.createdAt = [10, 9, 8, 7, 6, 5, 4, 3, 2, 1] := by
  refine ⟨?_, ?_, ?_⟩ <;> decide

/-- C5 amended: the three trending views each sort the fully materialized
collection descending by their key and take the top three after sorting, so
each returned prefix is sorted and consists of globally top-ranked records;
the useVideos main-feed page, by contrast, is the first limit records of the
enumeration with no sort, a prefix of the materialized collection that need
not be top-ranked by any key. -/
theorem C5_amended_feed_modes (profiles : List (String × ProfileRec))
    (db : VideosDB) :
    (useTrendingVideos profiles db).mostLiked
      = (sortByDesc (fun v => v.likes) (materializeAll profiles db)).take 3 ∧
    List.Pairwise (fun a b => b.likes ≤ a.likes)
      (useTrendingVideos profiles db).mostLiked ∧
    (∀ a ∈ (useTrendingVideos profiles db).mostLiked,
      ∀ b ∈ (sortByDesc (fun v => v.likes) (materializeAll profiles db)).drop 3,
        b.likes ≤ a.likes) ∧
    List.Perm (materializeAll profiles db)
      ((useTrendingVideos profiles db).mostLiked ++
        (sortByDesc (fun v => v.likes) (materializeAll profiles db)).drop 3) ∧
    List.Pairwise (fun a b => b.comments ≤ a.comments)
      (useTrendingVideos profiles db).mostCommented ∧
    (∀ a ∈ (useTrendingVideos profiles db).mostCommented,
      ∀ b ∈ (sortByDesc (fun v => v.comments) (materializeAll profiles db)).drop 3,
        b.comments ≤ a.comments) ∧
    List.Pairwise (fun a b => b.createdAt ≤ a.createdAt)
      (useTrendingVideos profiles db).recent ∧
    (∀ a ∈ (useTrendingVideos profiles db).recent,
      ∀ b ∈ (sortByDesc (fun v => v.createdAt) (materializeAll profiles db)).drop 3,
        b.createdAt ≤ a.createdAt) ∧
    ∀ limit, useVideosFeed profiles db limit <+: materializeAll profiles db := by
  obtain ⟨hL1, hL2, hL3⟩ :=
    sortByDesc_take_spec (fun v => v.likes) (materializeAll profiles db) 3
  obtain ⟨hC1, -, hC3⟩ :=
    sortByDesc_take_spec (fun v => v.comments) (materializeAll profiles db) 3
  obtain ⟨hR1, -, hR3⟩ :=
    sortByDesc_take_spec (fun v => v.createdAt) (materializeAll profiles db) 3
  exact ⟨rfl, hL1, hL3, hL2, hC1, hC3, hR1, hR3,
    fun limit => List.take_prefix limit _⟩

/-- Witness for the amended C5 theorem on the demo store: the recent view is
sorted descending by creation time. -/
theorem C5_amended_feed_modes_witness :
    List.Pairwise (fun a b => b.createdAt ≤ a.createdAt)
      (useTrendingVideos [] c5Db).recent :=
  (C5_amended_feed_modes [] c5Db).2.2.2.2.2.2.1

/-! ### Title search

The SearchBar scan materializes the whole videos collection and keeps the
videos whose title contains the query as a case-insensitive substring; the
title field is dereferenced without a guard, so a record without a title
makes the whole scan throw, the error is caught, and no results are
delivered. -/

def isPrefList : List Char → List Char → Bool
  | [], _ => true
  | _ :: _, [] => false
  | a :: as, b :: bs => a == b && isPrefList as bs

def containsSubList (needle : List Char) (hay : List Char) : Bool :=
  match hay with
  | [] => needle.isEmpty
  | c :: t => isPrefList needle (c :: t) || containsSubList needle t

/-- Embedding of the JavaScript string includes: substring containment. -/
def jsIncludes (hay needle : String) : Bool :=
  containsSubList needle.toList hay.toList

/-- Embedding of the JavaScript toLowerCase over the character list, so that
it evaluates by kernel reduction. -/
def jsToLower (s : String) : String :=
  String.mk (s.toList.map Char.toLower)

/-- The predicate the scan applies to each record: the lowercased title
contains the lowercased query; false when the title is absent, though the
code never reaches that case without throwing first. -/
def titleMatches (v : VideoRec) (term : String) : Bool :=
  match v.title with
  | some t => jsIncludes (jsToLower t) (jsToLower term)
  | none => false

structure SearchResult where
  id : String
  title : String
  videoUrl : String
  thumbnailUrl : String
  userId : String
  username : String
deriving Repr, DecidableEq

/-- The result record the scan pushes for a matching video, with the owner
profile join and its fallbacks. -/
def mkSearchResult (profiles : List (String × ProfileRec))
    (p : String × VideoRec) : SearchResult :=
  { id := p.1, title := p.2.title.getD "", videoUrl := p.2.videoUrl,
    thumbnailUrl := p.2.thumbnailUrl, userId := p.2.userId,
    username :=
      jsOrStr ((lookupA profiles p.2.userId).elim "" ProfileRec.name)
        "Anonymous" }

/-- Embedding of the scan loop of debouncedSearch in SearchBar.tsx: records
are visited in enumeration order; dereferencing an absent title throws,
which aborts the scan and discards the matches already accumulated. -/
def searchScan (profiles : List (String × ProfileRec)) (db : VideosDB)
    (term : String) : Except Unit (List SearchResult) :=
  match db with
  | [] => Except.ok []
  | (videoId, v) :: rest =>
    match v.title with
    | none => Except.error ()
    | some t =>
      if jsIncludes (jsToLower t) (jsToLower term) then
        match searchScan profiles rest term with
        | Except.ok rs => Except.ok (mkSearchResult profiles (videoId, v) :: rs)
        | Except.error e => Except.error e
      else searchScan profiles rest term

/-- Embedding of debouncedSearch in SearchBar.tsx: a blank query clears the
results; an empty store fails the snapshot-exists guard, so no results are
delivered and the previous results stay in place; otherwise the scan either
delivers its results or, when it throws, the error is caught and the
previous results likewise stay in place. -/
def debouncedSearch (profiles : List (String × ProfileRec)) (db : VideosDB)
    (term : String) (prev : List SearchResult) : List SearchResult :=
  if jsTrim term = "" then []
  else if db.isEmpty then prev
  else
    match searchScan profiles db term with
    | Except.ok rs => rs
    | Except.error _ => prev

theorem searchScan_ok (profiles : List (String × ProfileRec)) (db : VideosDB)
    (term : String) (hall : ∀ p ∈ db, (p : String × VideoRec).2.title.isSome) :
    searchScan profiles db term
      = Except.ok ((db.filter (fun p => titleMatches p.2 term)).map
          (mkSearchResult profiles)) := by
  induction db with
  | nil => rfl
  | cons p rest ih =>
    obtain ⟨videoId, v⟩ := p
    have hh : v.title.isSome := hall _ (List.mem_cons_self _ _)
    obtain ⟨t, ht⟩ := Option.isSome_iff_exists.mp hh
    have hrest : ∀ q ∈ rest, (q : String × VideoRec).2.title.isSome :=
      fun q hq => hall q (List.mem_cons_of_mem _ hq)
    unfold searchScan
    rw [ht, ih hrest]
    by_cases hm : jsIncludes (jsToLower t) (jsToLower term)
    · simp [hm, List.filter_cons, titleMatches, ht]
    · simp [hm, List.filter_cons, titleMatches, ht]

theorem searchScan_error (profiles : List (String × ProfileRec))
    (db : VideosDB) (term : String) (p : String × VideoRec) (hp : p ∈ db)
    (hnone : p.2.title = none) :
    searchScan profiles db term = Except.error () := by
  induction db with
  | nil => cases hp
  | cons q rest ih =>
    obtain ⟨videoId, v⟩ := q
    unfold searchScan
    cases ht : v.title with
    | none => rfl
    | some t =>
      have hprest : p ∈ rest := by
        rcases List.mem_cons.mp hp with hh | hh
        · exfalso
          rw [hh] at hnone
          rw [ht] at hnone
          cases hnone
        · exact hh
      rw [ih hprest]
      by_cases hm : jsIncludes (jsToLower t) (jsToLower term) <;> simp [hm]

/-- Stale result record left over from an earlier search, used by the C6
counterexample. -/
def c6Stale : SearchResult :=
  { id := "old", title := "Old", videoUrl := "", thumbnailUrl := "",
    userId := "u0", username := "old" }

/-- C6 counterexample: the claim quantifies over every collection, but on an
empty collection the snapshot-exists guard fails, setResults is never called
and a stale previous result stays in place: the search delivers a record
although the collection contains no matching video at all, so the delivered
set is not the matching set. -/
theorem C6_counterexample :
    jsTrim "cats" ≠ "" ∧
    debouncedSearch [] ([] : VideosDB) "cats" [c6Stale] = [c6Stale] ∧
    (([] : VideosDB).filter (fun p => titleMatches p.2 "cats")).map
        (mkSearchResult []) = ([] : List SearchResult) := by
  refine ⟨by decide, rfl, rfl⟩

/-- C6 amended: on a store that holds at least one video record, each
carrying a title, a query that is not blank delivers exactly the set of
videos whose title contains the query as a case-insensitive substring; on an
empty store the snapshot-exists guard fails and the previous results stay in
place. -/
theorem C6_title_search (profiles : List (String × ProfileRec))
    (db : VideosDB) (term : String) (prev : List SearchResult)
    (hall : ∀ p ∈ db, (p : String × VideoRec).2.title.isSome)
    (hterm : jsTrim term ≠ "") :
    (db ≠ [] →
      debouncedSearch profiles db term prev
        = (db.filter (fun p => titleMatches p.2 term)).map
            (mkSearchResult profiles) ∧
      ∀ r, r ∈ debouncedSearch profiles db term prev ↔
        ∃ p, p ∈ db ∧ titleMatches p.2 term = true
          ∧ r = mkSearchResult profiles p) ∧
    (db = [] → debouncedSearch profiles db term prev = prev) := by
  constructor
  · intro hne
    have hempty : ¬ db.isEmpty = true := by
      cases db with
      | nil => exact absurd rfl hne
      | cons a l => simp
    have heq : debouncedSearch profiles db term prev
        = (db.filter (fun p => titleMatches p.2 term)).map
            (mkSearchResult profiles) := by
      unfold debouncedSearch
      rw [if_neg hterm, if_neg hempty, searchScan_ok profiles db term hall]
    refine ⟨heq, fun r => ?_⟩
    rw [heq]
    constructor
    · intro hr
      obtain ⟨p, hpf, hpr⟩ := List.mem_map.mp hr
      obtain ⟨hpdb, hpm⟩ := List.mem_filter.mp hpf
      exact ⟨p, hpdb, hpm, hpr.symm⟩
    · intro hr
      obtain ⟨p, hpdb, hpm, hpr⟩ := hr
      exact List.mem_map.mpr ⟨p, List.mem_filter.mpr ⟨hpdb, hpm⟩, hpr.symm⟩
  · intro hnil
    subst hnil
    unfold debouncedSearch
    rw [if_neg hterm]
    rfl

/-- Demo search store: two titled videos, one matching the demo query. -/
def c6Db : VideosDB :=
  [("v1", { c1Video with likedBy := [], title := some "Hello World" }),
   ("v2", { c1Video with likedBy := [], title := some "Cats" })]

/-- Witness for the amended C6 theorem: on the non-empty demo store the
query world matches exactly the first video, case-insensitively. -/
theorem C6_title_search_witness :
    debouncedSearch [] c6Db "world" []
      = [mkSearchResult []
          ("v1", { c1Video with likedBy := [], title := some "Hello World" })] := by
  have h := ((C6_title_search [] c6Db "world" [] (by decide) (by decide)).1
    (by decide)).1
  rw [h]
  decide

/-- C10: when some video record in the store has no title field, the
unguarded toLowerCase dereference makes the scan throw on every query; the
error is caught, and a non-blank search delivers no results: the previous
results stay in place and the matches accumulated before the faulting record
are discarded. -/
theorem C10_missing_title_faults (profiles : List (String × ProfileRec))
    (db : VideosDB)
    (hbad : ∃ p, p ∈ db ∧ (p : String × VideoRec).2.title = none) :
    (∀ term, searchScan profiles db term = Except.error ()) ∧
    (∀ term prev, jsTrim term ≠ "" →
      debouncedSearch profiles db term prev = prev) := by
  obtain ⟨p, hp, hnone⟩ := hbad
  constructor
  · intro term
    exact searchScan_error profiles db term p hp hnone
  · intro term prev hterm
    have hempty : ¬ db.isEmpty = true := by
      cases db with
      | nil => cases hp
      | cons a l => simp
    unfold debouncedSearch
    rw [if_neg hterm, if_neg hempty,
      searchScan_error profiles db term p hp hnone]

/-- Demo search store for the faulting case: a matching titled video comes
first, a record without a title second. -/
def c10Db : VideosDB :=
  [("v1", { c1Video with likedBy := [], title := some "Hello World" }),
   ("v2", { c1Video with likedBy := [], title := none })]

/-- Witness for the C10 theorem: the scan throws even though the first
record matches, and the search leaves the previous results untouched. -/
theorem C10_missing_title_faults_witness :
    searchScan [] c10Db "hello" = Except.error () ∧
    debouncedSearch [] c10Db "hello" [] = [] := by
  have h := C10_missing_title_faults [] c10Db
    ⟨("v2", { c1Video with likedBy := [], title := none }), by decide, rfl⟩
  exact ⟨h.1 "hello", h.2 "hello" [] (by decide)⟩

/-! ### Seeding retry helper

The retry helper of scripts/seed.ts: one attempt, then on a retryable error
a delay and a recursive call with one fewer retry and a doubled delay.  The
operation is modelled as a stream of attempt outcomes indexed by attempt
number, and the helper returns the final outcome together with the list of
delays slept. -/

structure SeedError where
  code : String
deriving Repr, DecidableEq

/-- The two error classes the seeding retry helper retries on. -/
def retryableCode (c : String) : Bool :=
  c == "auth/too-many-requests" || c == "auth/network-request-failed"

/-- Embedding of retry in scripts/seed.ts: try the operation; on success
return the result; on a non-retryable error, or with no retries left,
rethrow; otherwise sleep delayMs, then recurse with retries minus one and
delayMs times backoff. -/
def retry {α : Type} (operation : Nat → Except SeedError α)
    (i retries delayMs backoff : Nat) : Except SeedError α × List Nat :=
  match operation i with
  | Except.ok a => (Except.ok a, [])
  | Except.error e =>
    if _hretry : retries = 0 ∨ retryableCode e.code = false then
      (Except.error e, [])
    else
      let rest := retry operation (i + 1) (retries - 1) (delayMs * backoff)
        backoff
      (rest.1, delayMs :: rest.2)
termination_by retries
decreasing_by
  simp only [not_or] at _hretry
  omega

theorem retry_ok {α : Type} (operation : Nat → Except SeedError α)
    (i retries delayMs backoff : Nat) (a : α)
    (h : operation i = Except.ok a) :
    retry operation i retries delayMs backoff = (Except.ok a, []) := by
  unfold retry
  rw [h]

theorem retry_error_eq {α : Type} (operation : Nat → Except SeedError α)
    (i retries delayMs backoff : Nat) (e : SeedError)
    (h : operation i = Except.error e) :
    retry operation i retries delayMs backoff =
      if retries = 0 ∨ retryableCode e.code = false then (Except.error e, [])
      else
        ((retry operation (i + 1) (retries - 1) (delayMs * backoff) backoff).1,
          delayMs ::
            (retry operation (i + 1) (retries - 1) (delayMs * backoff)
              backoff).2) := by
  conv_lhs => rw [retry]
  rw [h]
  rfl

theorem retry_fatal {α : Type} (operation : Nat → Except SeedError α)
    (i retries delayMs backoff : Nat) (e : SeedError)
    (h : operation i = Except.error e) (hc : retryableCode e.code = false) :
    retry operation i retries delayMs backoff = (Except.error e, []) := by
  rw [retry_error_eq operation i retries delayMs backoff e h,
    if_pos (Or.inr hc)]

theorem retry_step {α : Type} (operation : Nat → Except SeedError α)
    (i retries delayMs backoff : Nat) (e : SeedError)
    (h : operation i = Except.error e) (hc : retryableCode e.code = true)
    (hr : retries ≠ 0) :
    retry operation i retries delayMs backoff =
      ((retry operation (i + 1) (retries - 1) (delayMs * backoff) backoff).1,
        delayMs ::
          (retry operation (i + 1) (retries - 1) (delayMs * backoff)
            backoff).2) := by
  rw [retry_error_eq operation i retries delayMs backoff e h,
    if_neg (by simp [hc, hr])]

theorem retry_length_le {α : Type} (operation : Nat → Except SeedError α)
    (retries : Nat) :
    ∀ i delayMs backoff,
      (retry operation i retries delayMs backoff).2.length ≤ retries := by
  induction retries with
  | zero =>
    intro i delayMs backoff
    cases hop : operation i with
    | ok a => simp [retry_ok operation i 0 delayMs backoff a hop]
    | error e =>
      rw [retry_error_eq operation i 0 delayMs backoff e hop,
        if_pos (Or.inl rfl)]
      simp
  | succ r ih =>
    intro i delayMs backoff
    cases hop : operation i with
    | ok a => simp [retry_ok operation i (r + 1) delayMs backoff a hop]
    | error e =>
      by_cases hcond : r + 1 = 0 ∨ retryableCode e.code = false
      · rw [retry_error_eq operation i (r + 1) delayMs backoff e hop,
          if_pos hcond]
        simp
      · rw [retry_error_eq operation i (r + 1) delayMs backoff e hop,
          if_neg hcond]
        simpa using ih (i + 1) (delayMs * backoff) backoff

/-- C7: the seeding retry helper performs at most one plus retries attempts;
a successful attempt returns its result unchanged with no delay; an error
outside the two retryable classes is rethrown at once with no delay; and
with the defaults of three retries, a 2000 delay and backoff two, a stream
of always-retryable failures sleeps 2000, 4000 and 8000 milliseconds and
rethrows the error of the fourth attempt. -/
theorem C7_retry_behavior {α : Type} (operation : Nat → Except SeedError α) :
    (∀ i retries delayMs backoff a, operation i = Except.ok a →
      retry operation i retries delayMs backoff = (Except.ok a, [])) ∧
    (∀ i retries delayMs backoff e, operation i = Except.error e →
      retryableCode e.code = false →
      retry operation i retries delayMs backoff = (Except.error e, [])) ∧
    (∀ i retries delayMs backoff,
      (retry operation i retries delayMs backoff).2.length + 1 ≤ retries + 1) ∧
    ((∀ j, ∃ e, operation j = Except.error e ∧ retryableCode e.code = true) →
      ∀ i, (retry operation i 3 2000 2).2 = [2000, 4000, 8000] ∧
        ∃ e, operation (i + 3) = Except.error e ∧
          (retry operation i 3 2000 2).1 = Except.error e) := by
  refine ⟨?_, ?_, ?_, ?_⟩
  · intro i retries delayMs backoff a h
    exact retry_ok operation i retries delayMs backoff a h
  · intro i retries delayMs backoff e h hc
    exact retry_fatal operation i retries delayMs backoff e h hc
  · intro i retries delayMs backoff
    have := retry_length_le operation retries i delayMs backoff
    omega
  · intro hall i
    obtain ⟨e0, he0, hc0⟩ := hall i
    obtain ⟨e1, he1, hc1⟩ := hall (i + 1)
    obtain ⟨e2, he2, hc2⟩ := hall (i + 1 + 1)
    obtain ⟨e3, he3, hc3⟩ := hall (i + 1 + 1 + 1)
    have s1 : retry operation i 3 2000 2 =
        ((retry operation (i + 1) 2 4000 2).1,
          2000 :: (retry operation (i + 1) 2 4000 2).2) := by
      have hs := retry_step operation i 3 2000 2 e0 he0 hc0 (by decide)
      norm_num at hs
      exact hs
    have s2 : retry operation (i + 1) 2 4000 2 =
        ((retry operation (i + 1 + 1) 1 8000 2).1,
          4000 :: (retry operation (i + 1 + 1) 1 8000 2).2) := by
      have hs := retry_step operation (i + 1) 2 4000 2 e1 he1 hc1 (by decide)
      norm_num at hs
      exact hs
    have s3 : retry operation (i + 1 + 1) 1 8000 2 =
        ((retry operation (i + 1 + 1 + 1) 0 16000 2).1,
          8000 :: (retry operation (i + 1 + 1 + 1) 0 16000 2).2) := by
      have hs := retry_step operation (i + 1 + 1) 1 8000 2 e2 he2 hc2 (by decide)
      norm_num at hs
      exact hs
    have hbase : retry operation (i + 1 + 1 + 1) 0 16000 2
        = (Except.error e3, []) := by
      rw [retry_error_eq operation (i + 1 + 1 + 1) 0 16000 2 e3 he3,
        if_pos (Or.inl rfl)]
    have hi3 : i + 1 + 1 + 1 = i + 3 := by omega
    rw [s1, s2, s3, hbase]
    refine ⟨rfl, e3, ?_, rfl⟩
    rw [← hi3]
    exact he3

/-- Witness for the C7 theorem: a stream that always fails with the
rate-limit code yields the default backoff schedule. -/
theorem C7_retry_behavior_witness :
    (retry (fun _ => (Except.error ⟨"auth/too-many-requests"⟩ :
        Except SeedError Nat)) 0 3 2000 2).2 = [2000, 4000, 8000] := by
  have h := (C7_retry_behavior (fun _ => (Except.error
      ⟨"auth/too-many-requests"⟩ : Except SeedError Nat))).2.2.2
    (fun j => ⟨⟨"auth/too-many-requests"⟩, rfl, by decide⟩) 0
  exact h.1

end TikTok
